import Mathlib

/-!
Shallow embedding of the RADIUS attribute decoder of
`src/protocols/radius/decode.c` (FreeRADIUS), together with proofs of
specification properties of that decoder.

Buffers are modelled as lists of byte values (`Nat`); C pointers into a
packet are modelled as a list plus an offset (`Buf`).  Reads through a
pointer use `List.getD _ _ 0`, so a read outside the modelled window
yields `0` (the C code reads whatever memory is there; no claim depends
on such a read).  Fallible functions return `Option`; `none` models the
C return value `-1`.  The mutually recursive decoder family carries an
explicit fuel argument (first argument) so that every definition is
structurally recursive and executable; fuel `0` returns the error value,
and every concrete evaluation below supplies ample fuel.
-/

set_option maxRecDepth 4000

/-! ## Basic list helpers -/

/-- Write `v` at index `i` (no-op when out of range), as a C byte store. -/
def listSet (l : List Nat) (i v : Nat) : List Nat := l.set i v

/-- Model of C `strlen`: number of bytes before the first NUL. -/
def strlenL (l : List Nat) : Nat := (l.takeWhile (fun x => x != 0)).length

/-- Big-endian 32-bit value from four bytes. -/
def be32 (a b c d : Nat) : Nat := ((a * 256 + b) * 256 + c) * 256 + d

/-! ## MD5 (the crypto collaborator; executable reference implementation) -/

/-- Little-endian bytes of a 32-bit word. -/
def le32 (n : Nat) : List Nat := [n % 256, n / 256 % 256, n / 65536 % 256, n / 16777216 % 256]

/-- Little-endian bytes of a 64-bit length field. -/
def le64 (n : Nat) : List Nat := (List.range 8).map fun i => n / 256 ^ i % 256

/-- MD5 padding: append 0x80, zero-fill to 56 mod 64, append the bit length. -/
def md5Pad (msg : List Nat) : List Nat :=
  msg ++ [0x80] ++ List.replicate ((119 - msg.length % 64) % 64) 0 ++ le64 (8 * msg.length % 2 ^ 64)

/-- Split a 64-byte block into sixteen little-endian 32-bit words. -/
def toWords (block : List Nat) : List Nat :=
  (List.range 16).map fun j =>
    block.getD (4 * j) 0 + 256 * block.getD (4 * j + 1) 0 +
      65536 * block.getD (4 * j + 2) 0 + 16777216 * block.getD (4 * j + 3) 0

/-- MD5 round constants. -/
def md5K : List Nat :=
  [0xd76aa478, 0xe8c7b756, 0x242070db, 0xc1bdceee, 0xf57c0faf, 0x4787c62a, 0xa8304613, 0xfd469501,
   0x698098d8, 0x8b44f7af, 0xffff5bb1, 0x895cd7be, 0x6b901122, 0xfd987193, 0xa679438e, 0x49b40821,
   0xf61e2562, 0xc040b340, 0x265e5a51, 0xe9b6c7aa, 0xd62f105d, 0x02441453, 0xd8a1e681, 0xe7d3fbc8,
   0x21e1cde6, 0xc33707d6, 0xf4d50d87, 0x455a14ed, 0xa9e3e905, 0xfcefa3f8, 0x676f02d9, 0x8d2a4c8a,
   0xfffa3942, 0x8771f681, 0x6d9d6122, 0xfde5380c, 0xa4beea44, 0x4bdecfa9, 0xf6bb4b60, 0xbebfbc70,
   0x289b7ec6, 0xeaa127fa, 0xd4ef3085, 0x04881d05, 0xd9d4d039, 0xe6db99e5, 0x1fa27cf8, 0xc4ac5665,
   0xf4292244, 0x432aff97, 0xab9423a7, 0xfc93a039, 0x655b59c3, 0x8f0ccc92, 0xffeff47d, 0x85845dd1,
   0x6fa87e4f, 0xfe2ce6e0, 0xa3014314, 0x4e0811a1, 0xf7537e82, 0xbd3af235, 0x2ad7d2bb, 0xeb86d391]

/-- MD5 per-round left-rotation amounts. -/
def md5S : List Nat :=
  [7, 12, 17, 22, 7, 12, 17, 22, 7, 12, 17, 22, 7, 12, 17, 22,
   5, 9, 14, 20, 5, 9, 14, 20, 5, 9, 14, 20, 5, 9, 14, 20,
   4, 11, 16, 23, 4, 11, 16, 23, 4, 11, 16, 23, 4, 11, 16, 23,
   6, 10, 15, 21, 6, 10, 15, 21, 6, 10, 15, 21, 6, 10, 15, 21]

/-- MD5 round function (F, G, H, I depending on the round index). -/
def md5F (b c d i : Nat) : Nat :=
  if i < 16 then (b &&& c) ||| ((b ^^^ 0xffffffff) &&& d)
  else if i < 32 then (d &&& b) ||| ((d ^^^ 0xffffffff) &&& c)
  else if i < 48 then b ^^^ c ^^^ d
  else c ^^^ (b ||| (d ^^^ 0xffffffff))

/-- MD5 message-word schedule. -/
def md5G (i : Nat) : Nat :=
  if i < 16 then i
  else if i < 32 then (5 * i + 1) % 16
  else if i < 48 then (3 * i + 5) % 16
  else 7 * i % 16

/-- Left-rotation of a 32-bit word. -/
def rotl (x n : Nat) : Nat := (x * 2 ^ n + x / 2 ^ (32 - n)) % 2 ^ 32

/-- One MD5 round on the state quadruple. -/
def md5Step (w : List Nat) (st : Nat × Nat × Nat × Nat) (i : Nat) : Nat × Nat × Nat × Nat :=
  let t := (st.1 + md5F st.2.1 st.2.2.1 st.2.2.2 i + md5K.getD i 0 + w.getD (md5G i) 0) % 2 ^ 32
  (st.2.2.2, (st.2.1 + rotl t (md5S.getD i 0)) % 2 ^ 32, st.2.1, st.2.2.1)

/-- Process one 64-byte block. -/
def md5Block (st : Nat × Nat × Nat × Nat) (block : List Nat) : Nat × Nat × Nat × Nat :=
  let r := (List.range 64).foldl (md5Step (toWords block)) st
  ((st.1 + r.1) % 2 ^ 32, (st.2.1 + r.2.1) % 2 ^ 32,
   (st.2.2.1 + r.2.2.1) % 2 ^ 32, (st.2.2.2 + r.2.2.2) % 2 ^ 32)

/-- Process `n` consecutive 64-byte blocks. -/
def md5Blocks : Nat → Nat × Nat × Nat × Nat → List Nat → Nat × Nat × Nat × Nat
  | 0, st, _ => st
  | n + 1, st, l => md5Blocks n (md5Block st (l.take 64)) (l.drop 64)

/-- MD5 digest (16 bytes) of a byte string. -/
def md5 (msg : List Nat) : List Nat :=
  let p := md5Pad msg
  let st := md5Blocks (p.length / 64) (0x67452301, 0xefcdab89, 0x98badcfe, 0x10325476) p
  le32 st.1 ++ le32 st.2.1 ++ le32 st.2.2.1 ++ le32 st.2.2.2

/-! ## fr_radius_decode_password (User-Password, RFC 2865)

The C function XORs the buffer in place in 16-byte blocks.  Block 0 is
keyed by `MD5(secret ++ vector)`; block `m` (for `16 m < pwlen`) by
`MD5(secret ++ ciphertext-block (m-1))` — the intermediate digest of the
secret is cloned per block, which is what `md5 (secret ++ _)` expresses.
The function finally writes a NUL at `passwd[pwlen]` and returns
`strlen(passwd)`.  The model returns the final buffer contents together
with that return value (the NUL write is visible when `pwlen` is inside
the buffer; `strlen` also sees it when it sits just past the modelled
bytes, hence the appended sentinel in the returned length). -/

/-- Keystream digest for block `m` of User-Password decoding. -/
def pwDigest (passwd secret vector : List Nat) (m : Nat) : List Nat :=
  if m = 0 then md5 (secret ++ vector.take 16)
  else md5 (secret ++ (passwd.drop (16 * (m - 1))).take 16)

/-- Model of `fr_radius_decode_password`: returns (final buffer, return value). -/
def fr_radius_decode_password (passwd : List Nat) (pwlenArg : Nat) (secret vector : List Nat) :
    List Nat × Nat :=
  let pwlen := min pwlenArg 128
  if pwlen = 0 then
    let out := listSet passwd 0 0
    (out, strlenL (out ++ [0]))
  else
    let nb := (pwlen + 15) / 16
    let stream := (List.range (16 * nb)).map fun j =>
      passwd.getD j 0 ^^^ (pwDigest passwd secret vector (j / 16)).getD (j % 16) 0
    let out := listSet (stream ++ passwd.drop (16 * nb)) pwlen 0
    (out, strlenL (out ++ [0]))

/-! ## fr_radius_decode_tunnel_password (Tunnel-Password, RFC 2868)

Layout of `passwd`: 2-byte salt, then `pwlen - 2` ciphertext bytes whose
first plaintext byte is the embedded length.  Block 0 is keyed by
`MD5(secret ++ vector ++ salt)`, block `m ≥ 1` by
`MD5(secret ++ ciphertext-block (m-1))` (the cipher chains on
ciphertext).  Plaintext byte `k ≥ 1` is stored at buffer position
`k - 1`; plaintext byte 0 is the embedded length `E`.  On success the
function stores a NUL at position `E` and sets `*pwlen = E`; on failure
it returns `-1` leaving the buffer in whatever state it reached. -/

/-- Result of Tunnel-Password decoding: failure keeps the (possibly
partially rewritten) buffer; success carries the buffer and the new
`*pwlen` (also the return value). -/
inductive TunnelResult where
  | fail (buf : List Nat)
  | ok (buf : List Nat) (plen : Nat)

/-- Whether a `TunnelResult` is the failure (-1) outcome. -/
def TunnelResult.isFail : TunnelResult → Bool
  | .fail _ => true
  | .ok _ _ => false

/-- Keystream digest for block `m` of Tunnel-Password decoding. -/
def tunnelDigest (secret vector salt cipher : List Nat) (m : Nat) : List Nat :=
  if m = 0 then md5 (secret ++ vector.take 16 ++ salt)
  else md5 (secret ++ (cipher.drop (16 * (m - 1))).take 16)

/-- Full plaintext stream (including the leading embedded-length byte). -/
def tunnelStream (secret vector salt cipher : List Nat) : List Nat :=
  (List.range cipher.length).map fun k =>
    cipher.getD k 0 ^^^ (tunnelDigest secret vector salt cipher (k / 16)).getD (k % 16) 0

/-- The decrypted embedded length `E` (first plaintext byte). -/
def tunnelEmbeddedLen (passwd secret vector : List Nat) : Nat :=
  passwd.getD 2 0 ^^^ (md5 (secret ++ vector.take 16 ++ passwd.take 2)).getD 0 0

/-- The decrypted password payload (plaintext bytes after the length byte). -/
def tunnelPayload (passwd secret vector : List Nat) : List Nat :=
  (tunnelStream secret vector (passwd.take 2) (passwd.drop 2)).drop 1

/-- Model of `fr_radius_decode_tunnel_password`. -/
def fr_radius_decode_tunnel_password (passwd secret vector : List Nat) (zeros : Bool) : TunnelResult :=
  let pwlen := passwd.length
  if pwlen < 2 then .fail passwd
  else if pwlen ≤ 3 then .ok (listSet passwd 0 0) 0
  else
    let encLen := pwlen - 2
    let E := tunnelEmbeddedLen passwd secret vector
    if encLen < E then .fail passwd
    else
      let payload := tunnelPayload passwd secret vector
      let buf := payload ++ passwd.drop (pwlen - 3)
      if zeros ∧ ((List.range' E (encLen - 1 - E)).any fun i => payload.getD i 0 != 0) then
        .fail buf
      else .ok (listSet buf E 0) E

/-! ## fr_radius_decode_tlv_ok (TLV well-formedness validator)

The C loop consumes one sub-attribute per iteration; each consumed
sub-attribute is at least `dv_type + dv_length ≥ 1` bytes (the loop only
recurses when `dv_length ∈ {1,2}`), so `length + 1` fuel always
suffices.  `s` is the remaining slice. -/

/-- Identifier checks of one sub-attribute header (the first switch in the loop). -/
def idOkB (T : Nat) (s : List Nat) : Bool :=
  if T = 4 then
    if s.getD 0 0 == 0 && s.getD 1 0 == 0 && s.getD 2 0 == 0 && s.getD 3 0 == 0 then false
    else if s.getD 0 0 != 0 then false
    else true
  else if T = 2 then !(s.getD 0 0 == 0 && s.getD 1 0 == 0)
  else if T = 1 then true
  else false

/-- The validation loop of `fr_radius_decode_tlv_ok`. -/
def tlvOkLoop : Nat → Nat → Nat → List Nat → Bool
  | 0, _, _, _ => false
  | fuel + 1, T, W, s =>
    if s.isEmpty then true
    else if s.length < T + W then false
    else if !idOkB T s then false
    else if W = 0 then true
    else if W = 2 && s.getD T 0 != 0 then false
    else if W = 1 ∨ W = 2 then
      let attrlen := s.getD (T + W - 1) 0
      if attrlen < T + W then false
      else if s.length < attrlen then false
      else tlvOkLoop fuel T W (s.drop attrlen)
    else false

/-- Model of `fr_radius_decode_tlv_ok` (`true` = return 0, `false` = return -1). -/
def fr_radius_decode_tlv_ok (s : List Nat) (T W : Nat) : Bool :=
  if 2 < W ∨ T = 0 ∨ 4 < T then false
  else tlvOkLoop (s.length + 1) T W s

/-! ## Dictionary and value-pair data model -/

/-- Value kinds of attribute descriptors used by the decoder.  The
embedding covers the kinds the claims exercise; the remaining scalar
kinds behave like the leaf kinds here (decoded by the external
`fr_value_box_from_network`). -/
inductive FrType where
  | tString
  | tOctets
  | tUint32
  | tTlv
  | tVsa
  | tVendor
  | tExtended
  deriving DecidableEq

/-- The `flags.subtype` encryption kinds. -/
inductive EncryptFlag where
  | none
  | user_password
  | tunnel_password
  | ascend_secret
  deriving DecidableEq

/-- Attribute descriptor (`fr_dict_attr_t`).  `flen` is `flags.length`
(0 = no fixed length), `extra` the long-extended marker,
`parentIsExtended` records whether the parent descriptor exists and has
kind EXTENDED (used by the VSA branch of the dispatcher). -/
inductive Da where
  | mk (attr : Nat) (type : FrType) (has_tag : Bool) (subtype : EncryptFlag)
       (concat : Bool) (flen : Nat) (extra : Bool) (is_unknown : Bool)
       (is_root : Bool) (parentIsExtended : Bool) (children : List Da)

def Da.attr : Da → Nat
  | .mk a _ _ _ _ _ _ _ _ _ _ => a

def Da.type : Da → FrType
  | .mk _ t _ _ _ _ _ _ _ _ _ => t

def Da.has_tag : Da → Bool
  | .mk _ _ h _ _ _ _ _ _ _ _ => h

def Da.subtype : Da → EncryptFlag
  | .mk _ _ _ s _ _ _ _ _ _ _ => s

def Da.concat : Da → Bool
  | .mk _ _ _ _ c _ _ _ _ _ _ => c

def Da.flen : Da → Nat
  | .mk _ _ _ _ _ f _ _ _ _ _ => f

def Da.extra : Da → Bool
  | .mk _ _ _ _ _ _ e _ _ _ _ => e

def Da.is_unknown : Da → Bool
  | .mk _ _ _ _ _ _ _ u _ _ _ => u

def Da.is_root : Da → Bool
  | .mk _ _ _ _ _ _ _ _ r _ _ => r

def Da.parentIsExtended : Da → Bool
  | .mk _ _ _ _ _ _ _ _ _ p _ => p

def Da.children : Da → List Da
  | .mk _ _ _ _ _ _ _ _ _ _ cs => cs

/-- `fr_dict_attr_child_by_num`. -/
def Da.childByNum (da : Da) (n : Nat) : Option Da :=
  da.children.find? fun c => c.attr == n

/-- `fr_dict_unknown_afrom_fields`: a synthesized unknown attribute is a
raw OCTETS descriptor carrying the numeric id. -/
def mkUnknownDa (attrNum : Nat) : Da :=
  .mk attrNum .tOctets false .none false 0 false true false false []

/-- Child lookup falling back to an unknown descriptor (alloc never fails). -/
def childOrUnknown (parent : Da) (n : Nat) : Da :=
  (parent.childByNum n).getD (mkUnknownDa n)

/-- Vendor descriptor (`fr_dict_vendor_t`): PEN, sub-attribute type and
length widths, and the per-vendor flag bits (WiMAX continuation). -/
structure VendorDef where
  pen : Nat
  type : Nat
  length : Nat
  flags : Bool

/-- Dictionary: the root descriptor plus the vendor table. -/
structure FrDict where
  root : Da
  vendors : List VendorDef

/-- `fr_dict_vendor_by_num`. -/
def FrDict.vendorByNum (d : FrDict) (pen : Nat) : Option VendorDef :=
  d.vendors.find? fun v => v.pen == pen

/-- Decoder context (`fr_radius_ctx_t`).  The Ascend-Send-Secret
primitive is an external collaborator (its definition is not part of
this repository), so it is a function-valued field: `ascend vector
secret input` is the transformed buffer. -/
structure RadiusCtx where
  secret : List Nat
  vector : List Nat
  tunnel_password_zeros : Bool
  ascend : List Nat → List Nat → List Nat → List Nat

/-- A decoded value pair (`VALUE_PAIR`): descriptor, value payload bytes,
tag (0 when absent) and the tainted marker. -/
structure VPair where
  da : Da
  value : List Nat
  tag : Nat
  tainted : Bool

/-- A C pointer into a byte buffer: the underlying bytes plus an offset. -/
structure Buf where
  bytes : List Nat
  pos : Nat

/-- Read the byte `i` places past the pointer (0 when outside the modelled bytes). -/
def bread (b : Buf) (i : Nat) : Nat := b.bytes.getD (b.pos + i) 0

/-- Advance the pointer. -/
def badv (b : Buf) (k : Nat) : Buf := ⟨b.bytes, b.pos + k⟩

/-- The `n` bytes starting `off` past the pointer. -/
def bslice (b : Buf) (off n : Nat) : List Nat := (b.bytes.drop (b.pos + off)).take n

/-- RADIUS protocol constants (from the project headers / RFCs: the
Vendor-Specific attribute type, the WiMAX PEN, and the
Chargeable-User-Identity attribute number). -/
def FR_VENDOR_SPECIFIC : Nat := 26

def VENDORPEC_WIMAX : Nat := 24757

def FR_CHARGEABLE_USER_IDENTITY : Nat := 89

/-- Model of `memcpy_bounded`: refuses overlength requests, clamps the
copy at the end sentinel (`e` is the end offset in `b`). -/
def memcpy_bounded (b : List Nat) (src n e : Nat) : List Nat :=
  if 65535 < n then []
  else if e ≤ src then []
  else (b.drop src).take (min n (e - src))

/-! ## decode_concat

The walk advances by `ptr[1] ≥ 3` bytes per iteration, so
`length + 1` fuel suffices; `s` is the slice from the current attribute
to the packet end.  Returns (total value bytes, bytes consumed,
concatenated value). -/

/-- The walk of `decode_concat` (counting pass and copy pass combined;
the copy pass copies exactly the value bytes counted because the walk
has already bounds-checked every attribute). -/
def concatLoop : Nat → Nat → List Nat → Option (Nat × Nat × List Nat)
  | 0, _, _ => none
  | _ + 1, _, [] => some (0, 0, [])
  | fuel + 1, attrTy, s =>
    let l := s.getD 1 0
    if l ≤ 2 then none
    else if s.length < l then none
    else
      let value := (s.drop 2).take (l - 2)
      let s' := s.drop l
      if s'.isEmpty then some (l - 2, l, value)
      else if s'.getD 0 0 ≠ attrTy then some (l - 2, l, value)
      else
        match concatLoop fuel attrTy s' with
        | none => none
        | some (t, c, b) => some (l - 2 + t, l + c, value ++ b)

/-- Model of `decode_concat`: `s` is the packet slice starting at the
first attribute of the run. -/
def decode_concat (parent : Da) (s : List Nat) : Option (Nat × List VPair) :=
  match concatLoop (s.length + 1) (s.getD 0 0) s with
  | none => none
  | some (total, consumed, bytesOut) =>
    if total = 0 then some (2, [])
    else some (consumed, [⟨parent, bytesOut, 0, true⟩])

/-! ## decode_extended: fragment walk and copy pass

`decode_extended` receives a pointer to the byte after the outer
(type, length) header; `attr = data - 2` points back at that header.
The walk only ever shortens `end`, and each iteration advances by
`frag[1] ≥ 4`, so `packet_len + 1` fuel suffices. -/

/-- The fragment-collection walk of `decode_extended`: returns the final
`end` offset, the total fragment length and the fragment count.
`attrPos` is the offset of the anchor header, `frag` the current walk
offset, `e` the current end offset. -/
def extWalk : Nat → List Nat → Nat → Nat → Nat → Nat → Nat → Bool → Nat × Nat × Nat
  | 0, _, _, frag, _, fraglen, frags, _ => (frag, fraglen, frags)
  | fuel + 1, b, attrPos, frag, e, fraglen, frags, lastFrag =>
    if e ≤ frag then (e, fraglen, frags)
    else if lastFrag ∨ b.getD frag 0 ≠ b.getD attrPos 0 ∨ b.getD (frag + 1) 0 < 4 ∨
        b.getD (frag + 2) 0 ≠ b.getD (attrPos + 2) 0 ∨ e < frag + b.getD (frag + 1) 0 then
      (frag, fraglen, frags)
    else
      extWalk fuel b attrPos (frag + b.getD (frag + 1) 0) e
        (fraglen + (b.getD (frag + 1) 0 - 4)) (frags + 1)
        (b.getD (frag + 3) 0 &&& 0x80 = 0)

/-- The copy pass of `decode_extended`: concatenate the data bytes of
`frags` fragments starting at offset `frag` (each fragment contributes
its bytes past the 4-byte outer+ext+flag header, clamped at `e`). -/
def extCopy : Nat → List Nat → Nat → Nat → List Nat
  | 0, _, _, _ => []
  | frags + 1, b, frag, e =>
    memcpy_bounded b (frag + 4) (b.getD (frag + 1) 0 - 4) e ++
      extCopy frags b (frag + b.getD (frag + 1) 0) e

/-! ## decode_wimax: fragment walk and gather pass

The walk starts at `data + 4` (past the PEN); `end` is only changed in
the iteration that breaks, so it is constant during recursion.  Each
recursing iteration advances by `attr[1] + 6 ≥ 10`, so `packet_len + 1`
fuel suffices.  Returns the final `end` offset and the total data
length, or `none` for the -1 outcome. -/

/-- The fragment-collection walk of `decode_wimax`.  `base` is the
offset of the PEN (the `data` pointer of the C function). -/
def wimaxWalk : Nat → List Nat → Nat → Nat → Nat → Nat → Option (Nat × Nat)
  | 0, _, _, _, _, _ => none
  | fuel + 1, b, base, a, e, w =>
    if e ≤ a then some (e, w)
    else if e - a < 3 then none
    else
      let l := b.getD (a + 1) 0
      if l ≤ 3 then none
      else if e < a + l then none
      else
        let more := b.getD (a + 2) 0 &&& 0x80 ≠ 0
        if more ∧ a + l = e then none
        else
          let w' := w + (l - 3)
          if ¬more then some (a + l, w')
          else
            let a' := a + l
            if e - a' < 9 then none
            else if b.getD a' 0 ≠ FR_VENDOR_SPECIFIC then none
            else if b.getD (a' + 1) 0 < 9 then none
            else if e < a' + b.getD (a' + 1) 0 then none
            else if b.getD (a' + 2) 0 ≠ b.getD base 0 ∨ b.getD (a' + 3) 0 ≠ b.getD (base + 1) 0 ∨
                b.getD (a' + 4) 0 ≠ b.getD (base + 2) 0 ∨ b.getD (a' + 5) 0 ≠ b.getD (base + 3) 0 then
              none
            else if b.getD (a' + 1) 0 ≠ b.getD (a' + 7) 0 + 6 then none
            else if b.getD (base + 4) 0 ≠ b.getD (a' + 6) 0 then none
            else wimaxWalk fuel b base (a' + 6) e w'

/-- The gather pass of `decode_wimax`: starting at the PEN offset `a`,
copy each WiMAX attribute's data (3-byte WiMAX header stripped, clamped
at `e`), skipping the 4-byte PEN and then the 2-byte Vendor-Specific
header between fragments.  Each step advances by at least 6, so `e + 1`
fuel suffices. -/
def wimaxGather : Nat → List Nat → Nat → Nat → List Nat
  | 0, _, _, _ => []
  | fuel + 1, b, a, e =>
    if a < e then
      memcpy_bounded b (a + 7) (b.getD (a + 5) 0 - 3) e ++
        wimaxGather fuel b (a + 6 + b.getD (a + 5) 0) e
    else []

/-! ## fr_radius_decode_pair_value: preprocessing phases -/

/-- The (min, max) wire-size table `fr_radius_attr_sizes`.  The table
itself lives outside this repository slice; sizes here follow the spec:
strings and octets are unbounded, 32-bit integers are exactly 4 bytes,
containers have small minima. -/
def attrSizes : FrType → Nat × Nat
  | .tString => (0, 18446744073709551615)
  | .tOctets => (0, 18446744073709551615)
  | .tUint32 => (4, 4)
  | .tTlv => (2, 18446744073709551615)
  | .tVsa => (5, 18446744073709551615)
  | .tVendor => (0, 18446744073709551615)
  | .tExtended => (2, 18446744073709551615)

/-- External `fr_value_box_from_network` for the leaf kinds of this
embedding: the value payload is the wire bytes. -/
def fromNetwork : FrType → List Nat → Option (List Nat)
  | .tString, bytes => some bytes
  | .tOctets, bytes => some bytes
  | .tUint32, bytes => some bytes
  | _, _ => none

/-- Tag extraction (step 2 of the dispatcher).  Returns the new value
pointer, the new `data_len`, the tag, and whether the value was copied
into the local buffer; `none` is the -1 outcome. -/
def tagPhase (parent : Da) (data : Buf) (attr_len : Nat) :
    Option (Buf × Nat × Nat × Bool) :=
  if parent.has_tag ∧ 1 < attr_len ∧
      (bread data 0 < 0x20 ∨ parent.subtype = .tunnel_password) then
    if 256 ≤ attr_len then none
    else if parent.type = .tString then
      some (⟨bslice data 1 (attr_len - 1), 0⟩, attr_len - 1, bread data 0, true)
    else if parent.type = .tUint32 then
      some (⟨0 :: bslice data 1 (attr_len - 1), 0⟩, attr_len, bread data 0, true)
    else none
  else some (data, attr_len, 0, false)

/-- Number of live bytes after stripping trailing NULs from the first
`n` bytes of the buffer (the User-Password trim loop). -/
def stripz (l : List Nat) (n : Nat) : Nat :=
  ((l.take n).reverse.dropWhile fun x => x == 0).length

/-- Outcome of the decryption phase: hard failure, fall-through to the
raw demotion, or continue with the (possibly rewritten) value. -/
inductive DecOut where
  | err
  | toRaw (p : Buf) (dlen : Nat)
  | ok (p : Buf) (dlen : Nat)

/-- Obfuscation reversal (step 3 of the dispatcher). -/
def decryptPhase (parent : Da) (pctx : Option RadiusCtx) (data p : Buf)
    (dlen attr_len : Nat) (copied : Bool) : DecOut :=
  match pctx with
  | Option.none => .ok p dlen
  | Option.some c =>
    if parent.subtype = .none then .ok p dlen
    else if 253 < attr_len then .err
    else
      let buf : Buf := if copied then p else ⟨bslice data 0 attr_len, 0⟩
      match parent.subtype with
      | .user_password =>
        let out := (fr_radius_decode_password buf.bytes attr_len c.secret c.vector).1
        if parent.flen ≠ 0 then .ok ⟨out, 0⟩ (min dlen parent.flen)
        else .ok ⟨out, 0⟩ (stripz out dlen)
      | .tunnel_password =>
        match fr_radius_decode_tunnel_password (buf.bytes.take dlen) c.secret c.vector
            c.tunnel_password_zeros with
        | .fail b => .toRaw ⟨b, 0⟩ dlen
        | .ok b n => .ok ⟨b, 0⟩ n
      | .ascend_secret =>
        let out := c.ascend c.vector c.secret buf.bytes
        .ok ⟨out, 0⟩ (strlenL (out.take 16))
      | .none =>
        if parent.type = .tOctets ∧ parent.flen ≠ 0 ∧ parent.flen < dlen then
          .ok buf parent.flen
        else .ok buf dlen

/-- Emit one pair (step 6 of the dispatcher), including the raw
fall-back when the wire-to-value primitive rejects the bytes. -/
def emitVP (da : Da) (tag : Nat) (bytes : List Nat) (attr_len : Nat) :
    Option (Nat × List VPair) :=
  match fromNetwork da.type bytes with
  | some v => some (attr_len, [⟨da, v, tag, true⟩])
  | Option.none =>
    if da.is_unknown then none
    else
      match fromNetwork .tOctets bytes with
      | some v => some (attr_len, [⟨mkUnknownDa da.attr, v, 0, true⟩])
      | Option.none => none

/-- The `raw` demotion target: rebuild the descriptor as an unknown
OCTETS attribute, discard the tag, emit the current bytes. -/
def goRaw (parent : Da) (p : Buf) (dlen attr_len : Nat) : Option (Nat × List VPair) :=
  emitVP (mkUnknownDa parent.attr) 0 (bslice p 0 dlen) attr_len

/-- Unknown-vendor descriptor (`fr_dict_unknown_vendor_afrom_num`). -/
def mkUnknownVendor (pen : Nat) : Da :=
  .mk pen .tVendor false .none false 0 false true false false []

/-! ## The recursive decoder family

Faithful models of `fr_radius_decode_pair_value`, `decode_extended`,
`decode_vsa` (with its sub-attribute loop), `decode_vsa_internal`,
`fr_radius_decode_tlv` (with its loop), `decode_wimax`, and the
`invalid_extended` tail of the dispatcher.  Results are
`(bytes consumed, pairs appended to the caller's cursor)`; `none` is the
-1 outcome (in which case the C code appends nothing and frees any
staged pairs). -/

mutual

/-- Model of `fr_radius_decode_pair_value`. -/
def fr_radius_decode_pair_value : Nat → FrDict → Da → Buf → Nat → Nat → Option RadiusCtx →
    Option (Nat × List VPair)
  | 0, _, _, _, _, _, _ => none
  | fuel + 1, dict, parent, data, attr_len, packet_len, pctx =>
    if packet_len < attr_len ∨ 131072 < attr_len then none
    else if attr_len = 0 then some (0, [])
    else
      match tagPhase parent data attr_len with
      | Option.none => none
      | some (p0, dlen0, tag, copied) =>
        match decryptPhase parent pctx data p0 dlen0 attr_len copied with
        | .err => none
        | .toRaw p dlen => goRaw parent p dlen attr_len
        | .ok p dlen =>
          if dlen < (attrSizes parent.type).1 ∨ (attrSizes parent.type).2 < dlen then
            goRaw parent p dlen attr_len
          else
            match parent.type with
            | .tExtended =>
              let mn2 := 1 + (if parent.extra then 1 else 0)
              if dlen ≤ mn2 then goRaw parent p dlen attr_len
              else
                match parent.childByNum (bread p 0) with
                | some child =>
                  if ¬parent.extra ∨ bread p 1 &&& 0x80 = 0 then
                    match fr_radius_decode_pair_value fuel dict child (badv p mn2) (attr_len - mn2)
                        (attr_len - mn2) pctx with
                    | some (_, d) => some (attr_len, d)
                    | Option.none => extInvalid fuel dict parent p data attr_len packet_len mn2 pctx
                  else if dlen = 1 then
                    extInvalid fuel dict parent p data attr_len packet_len mn2 pctx
                  else
                    match decode_extended fuel dict child data attr_len packet_len pctx with
                    | some r => some r
                    | Option.none => extInvalid fuel dict parent p data attr_len packet_len mn2 pctx
                | Option.none => extInvalid fuel dict parent p data attr_len packet_len mn2 pctx
            | .tVsa =>
              if ¬parent.parentIsExtended then
                match decode_vsa fuel dict parent p attr_len packet_len pctx with
                | some r => some r
                | Option.none => goRaw parent p dlen attr_len
              else if dlen < 6 then goRaw parent p dlen attr_len
              else
                match parent.childByNum (be32 (bread p 0) (bread p 1) (bread p 2) (bread p 3)) with
                | Option.none => emitVP (mkUnknownDa (bread p 4)) tag (bslice p 5 (dlen - 5)) attr_len
                | some vch =>
                  match vch.childByNum (bread p 4) with
                  | Option.none =>
                    emitVP (mkUnknownDa (bread p 4)) tag (bslice p 5 (dlen - 5)) attr_len
                  | some child =>
                    match fr_radius_decode_pair_value fuel dict child (badv p 5) (attr_len - 5)
                        (attr_len - 5) pctx with
                    | Option.none => goRaw parent p dlen attr_len
                    | some (_, d) => some (attr_len, d)
            | .tTlv =>
              match fr_radius_decode_tlv fuel dict parent p attr_len pctx with
              | Option.none => goRaw parent p dlen attr_len
              | some (_, d) => some (attr_len, d)
            | .tVendor => goRaw parent p dlen attr_len
            | _ => emitVP parent tag (bslice p 0 dlen) attr_len
termination_by structural fuel _ _ _ _ _ _ => fuel

/-- The `invalid_extended` tail of the dispatcher: synthesize an unknown
child, optionally reassemble, then decode the remainder as octets. -/
def extInvalid : Nat → FrDict → Da → Buf → Buf → Nat → Nat → Nat → Option RadiusCtx →
    Option (Nat × List VPair)
  | 0, _, _, _, _, _, _, _, _ => none
  | fuel + 1, dict, parent, p, data, attr_len, packet_len, mn2, pctx =>
    let child := mkUnknownDa (bread p 0)
    if parent.extra then
      match decode_extended fuel dict child data attr_len packet_len pctx with
      | some r => some r
      | Option.none =>
        match fr_radius_decode_pair_value fuel dict child (badv p mn2) (attr_len - mn2)
            (attr_len - mn2) pctx with
        | Option.none => none
        | some (_, d) => some (attr_len, d)
    else
      match fr_radius_decode_pair_value fuel dict child (badv p mn2) (attr_len - mn2)
          (attr_len - mn2) pctx with
      | Option.none => none
      | some (_, d) => some (attr_len, d)
termination_by structural fuel _ _ _ _ _ _ _ _ => fuel

/-- Model of `decode_extended`: `p` points at the ext-type byte (two
bytes past the outer attribute header). -/
def decode_extended : Nat → FrDict → Da → Buf → Nat → Nat → Option RadiusCtx →
    Option (Nat × List VPair)
  | 0, _, _, _, _, _, _ => none
  | fuel + 1, dict, parent, p, attr_len, packet_len, pctx =>
    if attr_len < 3 then none
    else if bread p 1 &&& 0x80 = 0 then
      match fr_radius_decode_pair_value fuel dict parent (badv p 2) (attr_len - 2) (attr_len - 2) pctx with
      | Option.none => none
      | some (_, d) => some (attr_len, d)
    else
      let w := extWalk (packet_len + 1) p.bytes (p.pos - 2) (p.pos + attr_len)
        (p.pos + packet_len) (attr_len - 2) 1 false
      let head := extCopy w.2.2 p.bytes (p.pos - 2) w.1
      match fr_radius_decode_pair_value fuel dict parent ⟨head, 0⟩ w.2.1 w.2.1 pctx with
      | Option.none => none
      | some (_, d) => some (w.1 - p.pos, d)
termination_by structural fuel _ _ _ _ _ _ => fuel

/-- Model of `decode_vsa`. -/
def decode_vsa : Nat → FrDict → Da → Buf → Nat → Nat → Option RadiusCtx →
    Option (Nat × List VPair)
  | 0, _, _, _, _, _, _ => none
  | fuel + 1, dict, parent, p, attr_len, packet_len, pctx =>
    if parent.type ≠ .tVsa then none
    else if packet_len < attr_len then none
    else if attr_len < 5 then none
    else if bread p 0 ≠ 0 then none
    else
      let vendor := be32 (bread p 0) (bread p 1) (bread p 2) (bread p 3)
      match parent.childByNum vendor with
      | Option.none =>
        if fr_radius_decode_tlv_ok (bslice p 4 (attr_len - 4)) 1 1 = false then none
        else
          match decode_vsa_loop fuel dict (mkUnknownVendor vendor) (badv p 4) (attr_len - 4)
              pctx ⟨vendor, 1, 1, false⟩ [] with
          | Option.none => none
          | some (total, staged) => some (4 + total, staged)
      | some vda =>
        match dict.vendorByNum vendor with
        | Option.none => none
        | some dv =>
          if vendor = VENDORPEC_WIMAX ∧ dv.flags then
            decode_wimax fuel dict vda p attr_len packet_len pctx vendor
          else if fr_radius_decode_tlv_ok (bslice p 4 (attr_len - 4)) dv.type dv.length = false then none
          else
            match decode_vsa_loop fuel dict vda (badv p 4) (attr_len - 4) pctx dv [] with
            | Option.none => none
            | some (total, staged) => some (4 + total, staged)
termination_by structural fuel _ _ _ _ _ _ => fuel

/-- The sub-attribute loop of `decode_vsa`: decode consecutive vendor
sub-attributes, staging produced pairs; any failure discards the staged
batch.  Returns (bytes consumed, staged pairs). -/
def decode_vsa_loop : Nat → FrDict → Da → Buf → Nat → Option RadiusCtx → VendorDef →
    List VPair → Option (Nat × List VPair)
  | 0, _, _, _, _, _, _, _ => none
  | fuel + 1, dict, vda, p, rem, pctx, dv, staged =>
    if rem = 0 then some (0, staged)
    else
      match decode_vsa_internal fuel dict vda p rem pctx dv with
      | Option.none => none
      | some (consumed, d) =>
        match decode_vsa_loop fuel dict vda (badv p consumed) (rem - consumed) pctx dv
            (staged ++ d) with
        | Option.none => none
        | some (rest, out) => some (consumed + rest, out)
termination_by structural fuel _ _ _ _ _ _ _ => fuel

/-- Model of `decode_vsa_internal`: one vendor sub-attribute. -/
def decode_vsa_internal : Nat → FrDict → Da → Buf → Nat → Option RadiusCtx → VendorDef →
    Option (Nat × List VPair)
  | 0, _, _, _, _, _, _ => none
  | fuel + 1, dict, parent, p, data_len, pctx, dv =>
    if parent.type ≠ .tVendor then none
    else if data_len ≤ dv.type + dv.length then none
    else
      let attrId? : Option Nat :=
        if dv.type = 4 then some (65536 * bread p 1 + 256 * bread p 2 + bread p 3)
        else if dv.type = 2 then some (256 * bread p 0 + bread p 1)
        else if dv.type = 1 then some (bread p 0)
        else Option.none
      let attrlen? : Option Nat :=
        if dv.length = 2 then some (bread p (dv.type + 1))
        else if dv.length = 1 then some (bread p dv.type)
        else if dv.length = 0 then some data_len
        else Option.none
      match attrId?, attrlen? with
      | some attrId, some attrlen =>
        match fr_radius_decode_pair_value fuel dict (childOrUnknown parent attrId)
            (badv p (dv.type + dv.length)) (attrlen - (dv.type + dv.length))
            (attrlen - (dv.type + dv.length)) pctx with
        | Option.none => none
        | some (_, d) => some (attrlen, d)
      | _, _ => none
termination_by structural fuel _ _ _ _ _ _ => fuel

/-- Model of `fr_radius_decode_tlv`. -/
def fr_radius_decode_tlv : Nat → FrDict → Da → Buf → Nat → Option RadiusCtx → Option (Nat × List VPair)
  | 0, _, _, _, _, _ => none
  | fuel + 1, dict, parent, p, data_len, pctx =>
    if data_len < 3 then none
    else if fr_radius_decode_tlv_ok (bslice p 0 data_len) 1 1 = false then none
    else
      match decode_tlv_loop fuel dict parent p 0 data_len pctx [] with
      | Option.none => none
      | some staged => some (data_len, staged)
termination_by structural fuel _ _ _ _ _ => fuel

/-- The sub-attribute loop of `fr_radius_decode_tlv`: staged pairs are
merged onto the caller only after the whole slice succeeds. -/
def decode_tlv_loop : Nat → FrDict → Da → Buf → Nat → Nat → Option RadiusCtx → List VPair →
    Option (List VPair)
  | 0, _, _, _, _, _, _, _ => none
  | fuel + 1, dict, parent, p, off, data_len, pctx, staged =>
    if data_len ≤ off then some staged
    else
      let l := bread p (off + 1)
      match fr_radius_decode_pair_value fuel dict (childOrUnknown parent (bread p off))
          (badv p (off + 2)) (l - 2) (l - 2) pctx with
      | Option.none => none
      | some (_, d) => decode_tlv_loop fuel dict parent p (off + l) data_len pctx (staged ++ d)
termination_by structural fuel _ _ _ _ _ _ _ => fuel

/-- Model of `decode_wimax`: `p` points at the 4-byte PEN inside the
Vendor-Specific value. -/
def decode_wimax : Nat → FrDict → Da → Buf → Nat → Nat → Option RadiusCtx → Nat →
    Option (Nat × List VPair)
  | 0, _, _, _, _, _, _, _ => none
  | fuel + 1, dict, parent, p, attr_len, packet_len, pctx, _vendor =>
    if attr_len < 8 then none
    else if bread p 5 < 3 then none
    else if bread p 5 + 4 ≠ attr_len then none
    else
      let da := childOrUnknown parent (bread p 4)
      if bread p 6 &&& 0x80 = 0 then
        match fr_radius_decode_pair_value fuel dict da (badv p 7) (bread p 5 - 3) (bread p 5 - 3) pctx with
        | Option.none => none
        | some (_, d) => some (attr_len, d)
      else
        match wimaxWalk (packet_len + 1) p.bytes p.pos (p.pos + 4) (p.pos + packet_len) 0 with
        | Option.none => none
        | some (e, wlen) =>
          if wlen = 0 then none
          else
            match fr_radius_decode_pair_value fuel dict da ⟨wimaxGather (e + 1) p.bytes p.pos e, 0⟩
                wlen wlen pctx with
            | Option.none => none
            | some (_, d) => some (e - p.pos, d)
termination_by structural fuel _ _ _ _ _ _ _ => fuel

end

/-- Model of `fr_radius_decode_pair`: one top-level RFC-format attribute. -/
def fr_radius_decode_pair (fuel : Nat) (dict : FrDict) (data : Buf) (data_len : Nat)
    (pctx : Option RadiusCtx) : Option (Nat × List VPair) :=
  if data_len < 2 ∨ bread data 1 < 2 ∨ data_len < bread data 1 then none
  else
    let da := childOrUnknown dict.root (bread data 0)
    if data_len = 2 then
      if ¬dict.root.is_root then some (2, [])
      else if bread data 0 ≠ FR_CHARGEABLE_USER_IDENTITY then some (2, [])
      else some (2, [⟨da, [], 0, true⟩])
    else if da.concat then decode_concat da (bslice data 0 data_len)
    else
      match fr_radius_decode_pair_value fuel dict da (badv data 2) (bread data 1 - 2) (data_len - 2) pctx with
      | Option.none => none
      | some (rc, d) => some (2 + rc, d)

/-! ## Claim C1: User-Password determinism -/

def c1Secret : List Nat := [0x74, 0x65, 0x73, 0x74, 0x69, 0x6e, 0x67, 0x31, 0x32, 0x33]

def c1Vector : List Nat := [0, 1, 2, 3, 4, 5, 6, 7, 8, 9, 10, 11, 12, 13, 14, 15]

def c1Plain : List Nat := [0x68, 0x65, 0x6c, 0x6c, 0x6f] ++ List.replicate 11 0

def c1Cipher : List Nat := List.zipWith (· ^^^ ·) c1Plain (md5 (c1Secret ++ c1Vector))

/-- C1: for secret "testing123" and request authenticator 00 01 ... 0F, decoding
the 16-byte ciphertext `("hello" ++ 11 NULs) XOR MD5(secret ++ vector)` with
`fr_radius_decode_password` leaves the plaintext "hello" (NUL-terminated) in the
buffer and returns length 5. -/
theorem c1_user_password_determinism :
    fr_radius_decode_password c1Cipher 16 c1Secret c1Vector =
      ([0x68, 0x65, 0x6c, 0x6c, 0x6f, 0, 0, 0, 0, 0, 0, 0, 0, 0, 0, 0], 5) := by
  decide

/-! ## Claim C9: concat with zero total -/

/-- C9: whenever the walk of `decode_concat` completes with a total concatenated
value length of zero, `decode_concat` emits no pair and returns 2. -/
theorem c9_concat_zero_total (parent : Da) (s : List Nat) (t c : Nat) (bs : List Nat)
    (h : concatLoop (s.length + 1) (s.getD 0 0) s = some (t, c, bs)) (ht : t = 0) :
    decode_concat parent s = some (2, []) := by
  unfold decode_concat
  rw [h]
  simp [ht]

theorem c9_witness :
    (concatLoop (([] : List Nat).length + 1) (([] : List Nat).getD 0 0) [] =
        some (0, 0, []) ∧ (0 : Nat) = 0) ∧
      decode_concat (mkUnknownDa 0) [] = some (2, []) :=
  ⟨⟨by decide, rfl⟩, c9_concat_zero_total (mkUnknownDa 0) [] 0 0 [] (by decide) rfl⟩

/-! ## Claim C5: Tunnel-Password length contract -/

/-- C5: `fr_radius_decode_tunnel_password` fails for `pwlen < 2`; succeeds for
`2 ≤ pwlen ≤ 3` returning 0 with `*pwlen = 0` and an empty NUL-terminated
plaintext; and fails for `pwlen > 3` whenever the decrypted embedded length
exceeds `pwlen - 2`. -/
theorem c5_tunnel_length_contract (passwd secret vector : List Nat) (zeros : Bool) :
    (passwd.length < 2 → (fr_radius_decode_tunnel_password passwd secret vector zeros).isFail = true) ∧
    (2 ≤ passwd.length → passwd.length ≤ 3 →
      fr_radius_decode_tunnel_password passwd secret vector zeros = .ok (listSet passwd 0 0) 0 ∧
      (listSet passwd 0 0).getD 0 0 = 0) ∧
    (3 < passwd.length → passwd.length - 2 < tunnelEmbeddedLen passwd secret vector →
      (fr_radius_decode_tunnel_password passwd secret vector zeros).isFail = true) := by
  refine ⟨?_, ?_, ?_⟩
  · intro h
    simp only [fr_radius_decode_tunnel_password]
    rw [if_pos h]
    rfl
  · intro h2 h3
    simp only [fr_radius_decode_tunnel_password]
    rw [if_neg (by omega), if_pos h3]
    refine ⟨rfl, ?_⟩
    cases passwd with
    | nil => simp at h2
    | cons a t => simp [listSet]
  · intro h4 hE
    simp only [fr_radius_decode_tunnel_password]
    rw [if_neg (by omega), if_neg (by omega), if_pos hE]
    rfl

def vz16 : List Nat := List.replicate 16 0

def c5In : List Nat := [0, 0, (md5 (vz16 ++ [0, 0])).getD 0 0 ^^^ 255, 0]

theorem c5_witness :
    (([0] : List Nat).length < 2 ∧
        (fr_radius_decode_tunnel_password [0] [] vz16 false).isFail = true) ∧
    (2 ≤ ([5, 6] : List Nat).length ∧ ([5, 6] : List Nat).length ≤ 3 ∧
        fr_radius_decode_tunnel_password [5, 6] [] vz16 true = .ok (listSet [5, 6] 0 0) 0) ∧
    (3 < c5In.length ∧ c5In.length - 2 < tunnelEmbeddedLen c5In [] vz16 ∧
        (fr_radius_decode_tunnel_password c5In [] vz16 false).isFail = true) :=
  ⟨⟨by decide, (c5_tunnel_length_contract [0] [] vz16 false).1 (by decide)⟩,
   ⟨by decide, by decide,
     ((c5_tunnel_length_contract [5, 6] [] vz16 true).2.1 (by decide) (by decide)).1⟩,
   ⟨by decide, by decide,
     (c5_tunnel_length_contract c5In [] vz16 false).2.2 (by decide) (by decide)⟩⟩

/-! ## Claim C2: the tunnel_password_zeros flag -/

theorem tunnelPayload_length (passwd secret vector : List Nat) :
    (tunnelPayload passwd secret vector).length = passwd.length - 3 := by
  simp only [tunnelPayload, tunnelStream, List.length_drop, List.length_map,
    List.length_range]
  omega

/-- C2: for `pwlen > 3` and decrypted embedded length `E ≤ pwlen - 2`, decoding
with the `tunnel_password_zeros` flag set fails iff some plaintext byte at a
position in `[E, pwlen - 3]` is non-zero (positions past the last plaintext
byte read as 0); with the flag clear the same input succeeds. -/
theorem c2_tunnel_zeros_flag (passwd secret vector : List Nat)
    (h1 : 3 < passwd.length)
    (h2 : tunnelEmbeddedLen passwd secret vector ≤ passwd.length - 2) :
    ((fr_radius_decode_tunnel_password passwd secret vector true).isFail = true ↔
      ∃ i, tunnelEmbeddedLen passwd secret vector ≤ i ∧ i ≤ passwd.length - 3 ∧
        (tunnelPayload passwd secret vector).getD i 0 ≠ 0) ∧
    (fr_radius_decode_tunnel_password passwd secret vector false).isFail = false := by
  have hp := tunnelPayload_length passwd secret vector
  constructor
  · simp only [fr_radius_decode_tunnel_password]
    rw [if_neg (by omega), if_neg (by omega), if_neg (by omega)]
    by_cases hc : ((List.range' (tunnelEmbeddedLen passwd secret vector)
        (passwd.length - 2 - 1 - tunnelEmbeddedLen passwd secret vector)).any fun i =>
          (tunnelPayload passwd secret vector).getD i 0 != 0) = true
    · rw [if_pos ⟨trivial, hc⟩]
      refine iff_of_true rfl ?_
      obtain ⟨i, hi, hne⟩ := List.any_eq_true.mp hc
      rw [List.mem_range'_1] at hi
      exact ⟨i, by omega, by omega, by simpa using hne⟩
    · rw [if_neg fun hcc => hc hcc.2]
      refine iff_of_false (by simp [TunnelResult.isFail]) ?_
      rintro ⟨i, hiE, hiL, hne⟩
      apply hc
      apply List.any_eq_true.mpr
      have hilt : i < passwd.length - 3 := by
        rcases Nat.lt_or_ge i (passwd.length - 3) with h | h
        · exact h
        · exact absurd (List.getD_eq_default _ _ (by omega)) hne
      exact ⟨i, List.mem_range'_1.mpr ⟨hiE, by omega⟩, by simpa using hne⟩
  · simp only [fr_radius_decode_tunnel_password]
    rw [if_neg (by omega), if_neg (by omega), if_neg (by omega),
      if_neg fun hcc => Bool.false_ne_true hcc.1]
    rfl

def c2In : List Nat := [0, 0, (md5 (vz16 ++ [0, 0])).getD 0 0, 0]

theorem c2_witness :
    (3 < c2In.length ∧ tunnelEmbeddedLen c2In [] vz16 ≤ c2In.length - 2) ∧
    (((fr_radius_decode_tunnel_password c2In [] vz16 true).isFail = true ↔
        ∃ i, tunnelEmbeddedLen c2In [] vz16 ≤ i ∧ i ≤ c2In.length - 3 ∧
          (tunnelPayload c2In [] vz16).getD i 0 ≠ 0) ∧
      (fr_radius_decode_tunnel_password c2In [] vz16 false).isFail = false) :=
  ⟨⟨by decide, by decide⟩, c2_tunnel_zeros_flag c2In [] vz16 (by decide) (by decide)⟩

/-! ## Claim C4: characterization of fr_radius_decode_tlv_ok -/

/-- The full sub-attribute id as a number when `T = 4`. -/
def id4 (s : List Nat) : Nat :=
  ((s.getD 0 0 * 256 + s.getD 1 0) * 256 + s.getD 2 0) * 256 + s.getD 3 0

/-- The full sub-attribute id as a number when `T = 2`. -/
def id2 (s : List Nat) : Nat := s.getD 0 0 * 256 + s.getD 1 0

/-- The claim's identifier conditions: for `T = 4` the first id byte is 0
and the full id is non-zero; for `T = 2` the id is non-zero. -/
def IdProp (T : Nat) (s : List Nat) : Prop :=
  (T = 4 → s.getD 0 0 = 0 ∧ 0 < id4 s) ∧ (T = 2 → 0 < id2 s)

instance (T : Nat) (s : List Nat) : Decidable (IdProp T s) := by
  unfold IdProp; infer_instance

theorem idOkB_iff (T : Nat) (s : List Nat) (hT : T = 1 ∨ T = 2 ∨ T = 4) :
    idOkB T s = true ↔ IdProp T s := by
  rcases hT with h | h | h <;> subst h
  · refine iff_of_true rfl ⟨fun h => absurd h (by omega), fun h => absurd h (by omega)⟩
  · rw [show idOkB 2 s = !(s.getD 0 0 == 0 && s.getD 1 0 == 0) from rfl]
    constructor
    · intro h'
      refine ⟨fun h => absurd h (by omega), fun _ => ?_⟩
      have hz : ¬(s.getD 0 0 = 0 ∧ s.getD 1 0 = 0) := by
        rintro ⟨ha, hb⟩
        simp only [Bool.not_eq_true', Bool.and_eq_false_iff, beq_eq_false_iff_ne, ne_eq] at h'
        rcases h' with h' | h'
        · exact h' ha
        · exact h' hb
      simp only [id2]
      omega
    · rintro ⟨_, hp⟩
      have hpos := hp rfl
      simp only [id2] at hpos
      simp only [Bool.not_eq_true', Bool.and_eq_false_iff, beq_eq_false_iff_ne, ne_eq]
      omega
  · rw [show idOkB 4 s =
        (if (s.getD 0 0 == 0 && s.getD 1 0 == 0 && s.getD 2 0 == 0 && s.getD 3 0 == 0) = true
         then false
         else if (s.getD 0 0 != 0) = true then false else true) from rfl]
    constructor
    · intro h'
      by_cases hz : (s.getD 0 0 == 0 && s.getD 1 0 == 0 && s.getD 2 0 == 0 &&
          s.getD 3 0 == 0) = true
      · rw [if_pos hz] at h'
        exact absurd h' (by simp)
      · rw [if_neg hz] at h'
        by_cases h0 : (s.getD 0 0 != 0) = true
        · rw [if_pos h0] at h'
          exact absurd h' (by simp)
        · simp only [bne_iff_ne, ne_eq, not_not] at h0
          simp only [Bool.and_eq_true, beq_iff_eq, not_and] at hz
          refine ⟨fun _ => ⟨h0, ?_⟩, fun h => absurd h (by omega)⟩
          simp only [id4]
          omega
    · rintro ⟨hh, _⟩
      obtain ⟨h0, hpos⟩ := hh rfl
      simp only [id4] at hpos
      rw [if_neg ?zc, if_neg ?zc2]
      case zc =>
        simp only [Bool.and_eq_true, beq_iff_eq, not_and]
        omega
      case zc2 =>
        simp only [bne_iff_ne, ne_eq, not_not]
        exact h0

/-- The claim's notion of a well-formed TLV stream for `W ∈ {1, 2}`: a
concatenation of units `[T-byte id | W-byte length | value]` where each
header fits in the remaining slice, the id satisfies the id conditions,
for `W = 2` the high length byte is 0, and the reported length (last
length byte) is at least `T + W` and at most the remaining slice. -/
inductive TLVUnits (T W : Nat) : List Nat → Prop where
  | nil : TLVUnits T W []
  | cons (s : List Nat)
      (hdr : T + W ≤ s.length)
      (hid : IdProp T s)
      (hw2 : W = 2 → s.getD T 0 = 0)
      (hlo : T + W ≤ s.getD (T + W - 1) 0)
      (hhi : s.getD (T + W - 1) 0 ≤ s.length)
      (rest : TLVUnits T W (s.drop (s.getD (T + W - 1) 0))) : TLVUnits T W s

theorem tlvOkLoop_sound (T W : Nat) (hT : T = 1 ∨ T = 2 ∨ T = 4) (hW : W = 1 ∨ W = 2) :
    ∀ fuel s, s.length < fuel → tlvOkLoop fuel T W s = true → TLVUnits T W s := by
  intro fuel
  induction fuel with
  | zero => intro s hs h; omega
  | succ f ih =>
    intro s hs h
    simp only [tlvOkLoop] at h
    by_cases h0 : s.isEmpty = true
    · rw [List.isEmpty_iff] at h0
      exact h0 ▸ TLVUnits.nil
    · rw [if_neg h0] at h
      by_cases h1 : s.length < T + W
      · rw [if_pos h1] at h
        exact absurd h (by simp)
      · rw [if_neg h1] at h
        by_cases h2 : (!idOkB T s) = true
        · rw [if_pos h2] at h
          exact absurd h (by simp)
        · rw [if_neg h2, if_neg (show ¬W = 0 by omega)] at h
          by_cases h3 : (decide (W = 2) && (s.getD T 0 != 0)) = true
          · rw [if_pos h3] at h
            exact absurd h (by simp)
          · rw [if_neg h3, if_pos hW] at h
            by_cases h4 : s.getD (T + W - 1) 0 < T + W
            · rw [if_pos h4] at h
              exact absurd h (by simp)
            · rw [if_neg h4] at h
              by_cases h5 : s.length < s.getD (T + W - 1) 0
              · rw [if_pos h5] at h
                exact absurd h (by simp)
              · rw [if_neg h5] at h
                have hid : IdProp T s := (idOkB_iff T s hT).mp (by simpa using h2)
                refine TLVUnits.cons s (by omega) hid ?_ (by omega) (by omega) ?_
                · intro hW2
                  subst hW2
                  simpa using h3
                · apply ih _ ?_ h
                  have hs1 : 1 ≤ s.length := by
                    cases s with
                    | nil => simp at h0
                    | cons a t => simp
                  rw [List.length_drop]
                  omega

theorem tlvOkLoop_complete (T W : Nat) (hT : T = 1 ∨ T = 2 ∨ T = 4) (hW : W = 1 ∨ W = 2)
    {s : List Nat} (hu : TLVUnits T W s) :
    ∀ fuel, s.length < fuel → tlvOkLoop fuel T W s = true := by
  induction hu with
  | nil =>
    intro fuel hf
    match fuel, hf with
    | f + 1, _ => simp [tlvOkLoop]
  | cons s hdr hid hw2 hlo hhi rest ih =>
    intro fuel hf
    match fuel, hf with
    | f + 1, hf =>
      have hT1 : 1 ≤ T := by omega
      have hne : ¬s.isEmpty = true := by
        cases s with
        | nil => simp at hdr; omega
        | cons a t => simp
      simp only [tlvOkLoop]
      rw [if_neg hne, if_neg (by omega), if_neg ?hidn, if_neg (by omega), if_neg ?hw2n,
        if_pos hW, if_neg (by omega), if_neg (by omega)]
      case hidn => simp [(idOkB_iff T s hT).mpr hid]
      case hw2n =>
        intro hcc
        rw [Bool.and_eq_true] at hcc
        rcases hW with h | h <;> subst h
        · simp at hcc
        · have h00 := hw2 rfl
          rcases hcc with ⟨-, hcc2⟩
          rw [h00] at hcc2
          simp at hcc2
      apply ih
      have hs1 : 1 ≤ s.length := by omega
      rw [List.length_drop]
      omega

/-- C4: `fr_radius_decode_tlv_ok` with `T ∈ {1,2,4}` and `W ∈ {0,1,2}`
succeeds iff the slice is a concatenation of well-formed units
(`TLVUnits`); for `W = 0` it succeeds iff the slice is empty or the first
unit's header fits and its id is valid (success right after the first
id). -/
theorem c4_tlv_ok_characterization (s : List Nat) (T W : Nat)
    (hT : T = 1 ∨ T = 2 ∨ T = 4) (hW : W = 0 ∨ W = 1 ∨ W = 2) :
    fr_radius_decode_tlv_ok s T W = true ↔
      (if W = 0 then s = [] ∨ (T ≤ s.length ∧ IdProp T s) else TLVUnits T W s) := by
  have hguard : ¬(2 < W ∨ T = 0 ∨ 4 < T) := by omega
  rcases hW with h0 | h12
  · subst h0
    rw [if_pos rfl]
    simp only [fr_radius_decode_tlv_ok, if_neg hguard]
    cases s with
    | nil => simp [tlvOkLoop]
    | cons a t =>
      simp only [tlvOkLoop]
      rw [if_neg (by simp)]
      by_cases h1 : (a :: t).length < T + 0
      · rw [if_pos h1]
        refine iff_of_false (by simp) ?_
        rintro (hh | ⟨hh, _⟩)
        · simp at hh
        · omega
      · rw [if_neg h1]
        by_cases h2 : (!idOkB T (a :: t)) = true
        · rw [if_pos h2]
          refine iff_of_false (by simp) ?_
          rintro (hh | ⟨_, hh⟩)
          · simp at hh
          · have := (idOkB_iff T (a :: t) hT).mpr hh
            simp [this] at h2
        · rw [if_neg h2, if_pos (by trivial)]
          refine iff_of_true rfl (Or.inr ⟨by omega, ?_⟩)
          exact (idOkB_iff T (a :: t) hT).mp (by simpa using h2)
  · rw [if_neg (by omega : ¬W = 0)]
    simp only [fr_radius_decode_tlv_ok, if_neg hguard]
    constructor
    · exact tlvOkLoop_sound T W hT h12 _ s (by omega)
    · intro hu
      exact tlvOkLoop_complete T W hT h12 hu _ (by omega)

theorem c4_witness :
    ((1 : Nat) = 1 ∨ (1 : Nat) = 2 ∨ (1 : Nat) = 4) ∧
    ((1 : Nat) = 0 ∨ (1 : Nat) = 1 ∨ (1 : Nat) = 2) ∧
    (fr_radius_decode_tlv_ok [1, 3, 0] 1 1 = true ↔
      (if (1 : Nat) = 0 then
        ([1, 3, 0] : List Nat) = [] ∨
          (1 ≤ ([1, 3, 0] : List Nat).length ∧ IdProp 1 [1, 3, 0])
      else TLVUnits 1 1 [1, 3, 0])) :=
  ⟨Or.inl rfl, Or.inr (Or.inl rfl),
    c4_tlv_ok_characterization [1, 3, 0] 1 1 (Or.inl rfl) (Or.inr (Or.inl rfl))⟩

/-! ## Claim C7: container atomicity (TLV and VSA staging) -/

/-- The caller-side merge of a decode result onto its cursor: an error
appends nothing, success appends the staged pairs. -/
def appendOpt (cursor : List VPair) : Option (Nat × List VPair) → List VPair
  | Option.none => cursor
  | some (_, d) => cursor ++ d

/-- Every sub-attribute of the TLV slice decodes successfully (the
per-unit success of the `fr_radius_decode_tlv` loop, with the loop's
fuel schedule). -/
def tlvUnitsOk : Nat → FrDict → Da → Buf → Nat → Nat → Option RadiusCtx → Bool
  | 0, _, _, _, _, _, _ => false
  | fuel + 1, dict, parent, p, off, data_len, pctx =>
    if data_len ≤ off then true
    else
      match fr_radius_decode_pair_value fuel dict (childOrUnknown parent (bread p off))
          (badv p (off + 2)) (bread p (off + 1) - 2) (bread p (off + 1) - 2) pctx with
      | Option.none => false
      | some _ => tlvUnitsOk fuel dict parent p (off + bread p (off + 1)) data_len pctx

/-- The concatenation of the pairs produced by the individual TLV units. -/
def tlvUnitsDeltas : Nat → FrDict → Da → Buf → Nat → Nat → Option RadiusCtx → List VPair
  | 0, _, _, _, _, _, _ => []
  | fuel + 1, dict, parent, p, off, data_len, pctx =>
    if data_len ≤ off then []
    else
      match fr_radius_decode_pair_value fuel dict (childOrUnknown parent (bread p off))
          (badv p (off + 2)) (bread p (off + 1) - 2) (bread p (off + 1) - 2) pctx with
      | Option.none => []
      | some (_, d) => d ++ tlvUnitsDeltas fuel dict parent p (off + bread p (off + 1)) data_len pctx

/-- Every vendor sub-attribute of the VSA slice decodes successfully. -/
def vsaUnitsOk : Nat → FrDict → Da → Buf → Nat → Option RadiusCtx → VendorDef → Bool
  | 0, _, _, _, _, _, _ => false
  | fuel + 1, dict, vda, p, rem, pctx, dv =>
    if rem = 0 then true
    else
      match decode_vsa_internal fuel dict vda p rem pctx dv with
      | Option.none => false
      | some (consumed, _) => vsaUnitsOk fuel dict vda (badv p consumed) (rem - consumed) pctx dv

/-- Total bytes consumed by the vendor sub-attribute loop. -/
def vsaUnitsTotal : Nat → FrDict → Da → Buf → Nat → Option RadiusCtx → VendorDef → Nat
  | 0, _, _, _, _, _, _ => 0
  | fuel + 1, dict, vda, p, rem, pctx, dv =>
    if rem = 0 then 0
    else
      match decode_vsa_internal fuel dict vda p rem pctx dv with
      | Option.none => 0
      | some (consumed, _) =>
        consumed + vsaUnitsTotal fuel dict vda (badv p consumed) (rem - consumed) pctx dv

/-- The concatenation of the pairs produced by the individual vendor
sub-attributes. -/
def vsaUnitsDeltas : Nat → FrDict → Da → Buf → Nat → Option RadiusCtx → VendorDef → List VPair
  | 0, _, _, _, _, _, _ => []
  | fuel + 1, dict, vda, p, rem, pctx, dv =>
    if rem = 0 then []
    else
      match decode_vsa_internal fuel dict vda p rem pctx dv with
      | Option.none => []
      | some (consumed, d) =>
        d ++ vsaUnitsDeltas fuel dict vda (badv p consumed) (rem - consumed) pctx dv

theorem decode_tlv_loop_eq (fuel : Nat) (dict : FrDict) (parent : Da) (p : Buf) :
    ∀ off data_len pctx staged,
      decode_tlv_loop fuel dict parent p off data_len pctx staged =
        if tlvUnitsOk fuel dict parent p off data_len pctx = true
        then some (staged ++ tlvUnitsDeltas fuel dict parent p off data_len pctx)
        else none := by
  induction fuel with
  | zero => intro off data_len pctx staged; simp [decode_tlv_loop, tlvUnitsOk]
  | succ f ih =>
    intro off data_len pctx staged
    simp only [decode_tlv_loop, tlvUnitsOk, tlvUnitsDeltas]
    by_cases h : data_len ≤ off
    · simp [h]
    · simp only [if_neg h]
      rcases hdpv : fr_radius_decode_pair_value f dict (childOrUnknown parent (bread p off))
          (badv p (off + 2)) (bread p (off + 1) - 2) (bread p (off + 1) - 2) pctx with
        _ | ⟨rc, d⟩
      · simp [hdpv]
      · simp only [hdpv]
        rw [ih]
        by_cases hok :
          tlvUnitsOk f dict parent p (off + bread p (off + 1)) data_len pctx = true
        · simp [hok]
        · simp [hok]

theorem decode_vsa_loop_eq (fuel : Nat) (dict : FrDict) (vda : Da) (dv : VendorDef) :
    ∀ (p : Buf) rem pctx staged,
      decode_vsa_loop fuel dict vda p rem pctx dv staged =
        if vsaUnitsOk fuel dict vda p rem pctx dv = true
        then some (vsaUnitsTotal fuel dict vda p rem pctx dv,
          staged ++ vsaUnitsDeltas fuel dict vda p rem pctx dv)
        else none := by
  induction fuel with
  | zero => intro p rem pctx staged; simp [decode_vsa_loop, vsaUnitsOk]
  | succ f ih =>
    intro p rem pctx staged
    simp only [decode_vsa_loop, vsaUnitsOk, vsaUnitsTotal, vsaUnitsDeltas]
    by_cases h : rem = 0
    · simp [h]
    · simp only [if_neg h]
      rcases hdpv : decode_vsa_internal f dict vda p rem pctx dv with _ | ⟨consumed, d⟩
      · simp [hdpv]
      · simp only [hdpv]
        rw [ih]
        by_cases hok : vsaUnitsOk f dict vda (badv p consumed) (rem - consumed) pctx dv = true
        · simp [hok]
        · simp [hok]

/-- C7: container decoding is atomic.  The TLV loop and the VSA
sub-attribute loop return their staged pairs only when every
sub-attribute in the slice decodes successfully (the result is exactly
the caller's staged prefix followed by the per-unit pairs, in order),
and return the error outcome — with nothing merged onto the caller's
cursor, previously appended pairs untouched — as soon as any
sub-attribute fails. -/
theorem c7_container_atomicity (fuel : Nat) (dict : FrDict) (parent vda : Da) (p q : Buf)
    (off data_len rem dlen2 plen2 : Nat) (pctx : Option RadiusCtx) (dv : VendorDef)
    (staged cursor : List VPair) :
    (decode_tlv_loop fuel dict parent p off data_len pctx staged =
        if tlvUnitsOk fuel dict parent p off data_len pctx = true
        then some (staged ++ tlvUnitsDeltas fuel dict parent p off data_len pctx)
        else none) ∧
    (decode_vsa_loop fuel dict vda q rem pctx dv staged =
        if vsaUnitsOk fuel dict vda q rem pctx dv = true
        then some (vsaUnitsTotal fuel dict vda q rem pctx dv,
          staged ++ vsaUnitsDeltas fuel dict vda q rem pctx dv)
        else none) ∧
    (fr_radius_decode_tlv fuel dict parent p dlen2 pctx = Option.none →
        appendOpt cursor (fr_radius_decode_tlv fuel dict parent p dlen2 pctx) = cursor) ∧
    (decode_vsa fuel dict parent p dlen2 plen2 pctx = Option.none →
        appendOpt cursor (decode_vsa fuel dict parent p dlen2 plen2 pctx) = cursor) :=
  ⟨decode_tlv_loop_eq fuel dict parent p off data_len pctx staged,
   decode_vsa_loop_eq fuel dict vda dv q rem pctx staged,
   fun h => by rw [h]; rfl,
   fun h => by rw [h]; rfl⟩

theorem c7_witness :
    (fr_radius_decode_tlv 1 ⟨mkUnknownDa 0, []⟩ (mkUnknownDa 0) ⟨[], 0⟩ 0 Option.none = Option.none ∧
     decode_vsa 1 ⟨mkUnknownDa 0, []⟩ (mkUnknownDa 0) ⟨[], 0⟩ 0 0 Option.none = Option.none) ∧
    (appendOpt [] (fr_radius_decode_tlv 1 ⟨mkUnknownDa 0, []⟩ (mkUnknownDa 0) ⟨[], 0⟩ 0 Option.none) = [] ∧
     appendOpt [] (decode_vsa 1 ⟨mkUnknownDa 0, []⟩ (mkUnknownDa 0) ⟨[], 0⟩ 0 0 Option.none) = []) :=
  ⟨⟨rfl, rfl⟩,
   (c7_container_atomicity 1 ⟨mkUnknownDa 0, []⟩ (mkUnknownDa 0) (mkUnknownDa 0) ⟨[], 0⟩ ⟨[], 0⟩
       0 0 0 0 0 Option.none ⟨0, 1, 1, false⟩ [] []).2.2.1 rfl,
   (c7_container_atomicity 1 ⟨mkUnknownDa 0, []⟩ (mkUnknownDa 0) (mkUnknownDa 0) ⟨[], 0⟩ ⟨[], 0⟩
       0 0 0 0 0 Option.none ⟨0, 1, 1, false⟩ [] []).2.2.2 rfl⟩

/-! ## Claim C8: WiMAX fragment-chain well-formedness -/

/-- The claim's conditions on a fragmented WiMAX run starting at WiMAX
header offset `a` (with `base` the offset of the anchor's PEN and `e`
the packet end): every continuation fragment begins a new outer
Vendor-Specific attribute carrying the same 4-byte PEN and the same
WiMAX attribute id, its outer length equals its WiMAX length plus 6,
nothing is truncated, and the final fragment has the "more" bit clear. -/
inductive WimaxFrags (b : List Nat) (base e : Nat) : Nat → Prop where
  | last (a : Nat)
      (hroom : a + 3 ≤ e)
      (hlen : 3 < b.getD (a + 1) 0)
      (hfit : a + b.getD (a + 1) 0 ≤ e)
      (hmore : b.getD (a + 2) 0 &&& 0x80 = 0) : WimaxFrags b base e a
  | cont (a : Nat)
      (hroom : a + 3 ≤ e)
      (hlen : 3 < b.getD (a + 1) 0)
      (hfit : a + b.getD (a + 1) 0 ≤ e)
      (hmore : b.getD (a + 2) 0 &&& 0x80 ≠ 0)
      (hnext : a + b.getD (a + 1) 0 + 9 ≤ e)
      (hvsa : b.getD (a + b.getD (a + 1) 0) 0 = FR_VENDOR_SPECIFIC)
      (holen : 9 ≤ b.getD (a + b.getD (a + 1) 0 + 1) 0)
      (hofit : a + b.getD (a + 1) 0 + b.getD (a + b.getD (a + 1) 0 + 1) 0 ≤ e)
      (hpen0 : b.getD (a + b.getD (a + 1) 0 + 2) 0 = b.getD base 0)
      (hpen1 : b.getD (a + b.getD (a + 1) 0 + 3) 0 = b.getD (base + 1) 0)
      (hpen2 : b.getD (a + b.getD (a + 1) 0 + 4) 0 = b.getD (base + 2) 0)
      (hpen3 : b.getD (a + b.getD (a + 1) 0 + 5) 0 = b.getD (base + 3) 0)
      (hwlen : b.getD (a + b.getD (a + 1) 0 + 1) 0 =
        b.getD (a + b.getD (a + 1) 0 + 7) 0 + 6)
      (hwattr : b.getD (base + 4) 0 = b.getD (a + b.getD (a + 1) 0 + 6) 0)
      (rest : WimaxFrags b base e (a + b.getD (a + 1) 0 + 6)) : WimaxFrags b base e a

theorem wimaxWalk_chain (b : List Nat) (base e : Nat) :
    ∀ fuel a w r, wimaxWalk fuel b base a e w = some r → a < e →
      WimaxFrags b base e a := by
  intro fuel
  induction fuel with
  | zero => intro a w r h _; simp [wimaxWalk] at h
  | succ f ih =>
    intro a w r h ha
    simp only [wimaxWalk] at h
    rw [if_neg (by omega)] at h
    by_cases h2 : e - a < 3
    · rw [if_pos h2] at h
      exact absurd h (by simp)
    · rw [if_neg h2] at h
      by_cases h3 : b.getD (a + 1) 0 ≤ 3
      · rw [if_pos h3] at h
        exact absurd h (by simp)
      · rw [if_neg h3] at h
        by_cases h4 : e < a + b.getD (a + 1) 0
        · rw [if_pos h4] at h
          exact absurd h (by simp)
        · rw [if_neg h4] at h
          by_cases hm : b.getD (a + 2) 0 &&& 0x80 ≠ 0
          · by_cases heq : a + b.getD (a + 1) 0 = e
            · rw [if_pos ⟨hm, heq⟩] at h
              exact absurd h (by simp)
            · rw [if_neg fun hcc => heq hcc.2, if_neg (by simpa using hm)] at h
              by_cases h5 : e - (a + b.getD (a + 1) 0) < 9
              · rw [if_pos h5] at h
                exact absurd h (by simp)
              · rw [if_neg h5] at h
                by_cases h6 : b.getD (a + b.getD (a + 1) 0) 0 ≠ FR_VENDOR_SPECIFIC
                · rw [if_pos h6] at h
                  exact absurd h (by simp)
                · rw [if_neg h6] at h
                  by_cases h7 : b.getD (a + b.getD (a + 1) 0 + 1) 0 < 9
                  · rw [if_pos h7] at h
                    exact absurd h (by simp)
                  · rw [if_neg h7] at h
                    by_cases h8 : e < a + b.getD (a + 1) 0 + b.getD (a + b.getD (a + 1) 0 + 1) 0
                    · rw [if_pos h8] at h
                      exact absurd h (by simp)
                    · rw [if_neg h8] at h
                      by_cases h9 : b.getD (a + b.getD (a + 1) 0 + 2) 0 ≠ b.getD base 0 ∨
                          b.getD (a + b.getD (a + 1) 0 + 3) 0 ≠ b.getD (base + 1) 0 ∨
                          b.getD (a + b.getD (a + 1) 0 + 4) 0 ≠ b.getD (base + 2) 0 ∨
                          b.getD (a + b.getD (a + 1) 0 + 5) 0 ≠ b.getD (base + 3) 0
                      · rw [if_pos h9] at h
                        exact absurd h (by simp)
                      · rw [if_neg h9] at h
                        by_cases h10 : b.getD (a + b.getD (a + 1) 0 + 1) 0 ≠
                            b.getD (a + b.getD (a + 1) 0 + 7) 0 + 6
                        · rw [if_pos h10] at h
                          exact absurd h (by simp)
                        · rw [if_neg h10] at h
                          by_cases h11 : b.getD (base + 4) 0 ≠ b.getD (a + b.getD (a + 1) 0 + 6) 0
                          · rw [if_pos h11] at h
                            exact absurd h (by simp)
                          · rw [if_neg h11] at h
                            push_neg at h9
                            refine WimaxFrags.cont a (by omega) (by omega) (by omega) hm
                              (by omega) (by simpa using h6) (by omega) (by omega)
                              h9.1 h9.2.1 h9.2.2.1 h9.2.2.2
                              (by simpa using h10) (by simpa using h11) ?_
                            exact ih _ _ _ h (by omega)
          · rw [if_neg fun hcc => hm hcc.1, if_pos (by simpa using hm)] at h
            exact WimaxFrags.last a (by omega) (by omega) (by omega) (by simpa using hm)

/-- C8: once `decode_wimax` has entered fragmented reassembly (length
checks passed and the anchor's continuation bit set), a successful
return implies the whole continuation chain is well formed in the sense
of `WimaxFrags` — so any PEN or attribute-id mismatch, length mismatch,
truncation, or a "more" bit set on the final fragment makes the call
fail — and a failing call merges nothing onto the caller's cursor. -/
theorem c8_wimax_reassembly (fuel : Nat) (dict : FrDict) (parent : Da) (p : Buf)
    (attr_len packet_len : Nat) (pctx : Option RadiusCtx) (vendor : Nat)
    (h1 : 8 ≤ attr_len) (h2 : 3 ≤ bread p 5) (h3 : bread p 5 + 4 = attr_len)
    (h4 : bread p 6 &&& 0x80 ≠ 0) :
    ((decode_wimax (fuel + 1) dict parent p attr_len packet_len pctx vendor).isSome = true →
      WimaxFrags p.bytes p.pos (p.pos + packet_len) (p.pos + 4)) ∧
    (decode_wimax (fuel + 1) dict parent p attr_len packet_len pctx vendor = Option.none →
      ∀ cursor : List VPair,
        appendOpt cursor
          (decode_wimax (fuel + 1) dict parent p attr_len packet_len pctx vendor) = cursor) := by
  constructor
  · intro hs
    simp only [decode_wimax] at hs
    rw [if_neg (by omega), if_neg (by omega), if_neg (by omega), if_neg h4] at hs
    rcases hw : wimaxWalk (packet_len + 1) p.bytes p.pos (p.pos + 4) (p.pos + packet_len) 0 with
      _ | ⟨e, wlen⟩
    · rw [hw] at hs
      simp at hs
    · rw [hw] at hs
      by_cases hwl : wlen = 0
      · simp [hwl] at hs
      · by_cases hae : p.pos + 4 < p.pos + packet_len
        · exact wimaxWalk_chain p.bytes p.pos (p.pos + packet_len) _ _ _ _ hw hae
        · exfalso
          have hz : wimaxWalk (packet_len + 1) p.bytes p.pos (p.pos + 4) (p.pos + packet_len) 0 =
              some (p.pos + packet_len, 0) := by
            simp only [wimaxWalk]
            rw [if_pos (by omega)]
          rw [hz] at hw
          simp at hw
          exact hwl hw.2.symm
  · intro h cursor
    rw [h]
    rfl

def c8Bytes : List Nat := [0, 0, 0x60, 0xB5, 1, 5, 0x80, 0x77, 0x88,
                           26, 10, 0, 0, 0x60, 0xB5, 1, 4, 0, 0x99]

def c8Wda : Da := .mk 1 .tOctets false .none false 0 false false false false []

def c8Vda : Da := .mk 24757 .tVendor false .none false 0 false false false false [c8Wda]

def c8Dict : FrDict := ⟨mkUnknownDa 0, [⟨24757, 1, 1, true⟩]⟩

theorem c8_witness :
    (8 ≤ 9 ∧ 3 ≤ bread ⟨c8Bytes, 0⟩ 5 ∧ bread ⟨c8Bytes, 0⟩ 5 + 4 = 9 ∧
      bread ⟨c8Bytes, 0⟩ 6 &&& 0x80 ≠ 0) ∧
    (((decode_wimax (9 + 1) c8Dict c8Vda ⟨c8Bytes, 0⟩ 9 19 Option.none 24757).isSome = true →
        WimaxFrags c8Bytes 0 (0 + 19) (0 + 4)) ∧
      (decode_wimax (9 + 1) c8Dict c8Vda ⟨c8Bytes, 0⟩ 9 19 Option.none 24757 = Option.none →
        ∀ cursor : List VPair,
          appendOpt cursor
            (decode_wimax (9 + 1) c8Dict c8Vda ⟨c8Bytes, 0⟩ 9 19 Option.none 24757) = cursor)) :=
  ⟨⟨by decide, by decide, by decide, by decide⟩,
    c8_wimax_reassembly 9 c8Dict c8Vda ⟨c8Bytes, 0⟩ 9 19 Option.none 24757
      (by decide) (by decide) (by decide) (by decide)⟩

/-! ## Claim C3: long-extended reassembly of the spec's concrete example -/

def c3Child : Da := .mk 1 .tOctets false .none false 0 false false false false []

def c3Top : Da := .mk 0x1B .tExtended false .none false 0 true false false false [c3Child]

def c3Dict : FrDict := ⟨.mk 0 .tOctets false .none false 0 false false true false [c3Top], []⟩

/-- The bytes listed by the claim: a long-extended anchor
`1B 09 01 80 AA BB CC DD EE` followed by `1B 06 01 00 FF 11 22`. -/
def c3Bytes : List Nat := [0x1B, 0x09, 0x01, 0x80, 0xAA, 0xBB, 0xCC, 0xDD, 0xEE,
                           0x1B, 0x06, 0x01, 0x00, 0xFF, 0x11, 0x22]

/-- C3 counterexample: decoding the listed bytes does NOT produce a pair
with value bytes `AA BB CC DD EE FF 11 22` and consumption 15, as the
claim states.  (The continuation's length byte `06` covers only
`1B 06 01 00 FF 11`, so the reassembled value is the 7 bytes
`AA BB CC DD EE FF 11` and the final byte `22` is never part of it.) -/
theorem c3_counterexample :
    ¬((fr_radius_decode_pair 20 c3Dict ⟨c3Bytes, 0⟩ 16 Option.none).map
        (fun r => (r.1, r.2.map VPair.value)) =
      some (15, [[0xAA, 0xBB, 0xCC, 0xDD, 0xEE, 0xFF, 0x11, 0x22]])) := by
  decide

/-- C3 amended: decoding the listed bytes produces exactly one
reassembled (tainted) pair under child 1 of the long-extended attribute
`0x1B`, whose value bytes are `AA BB CC DD EE FF 11` (the continuation
contributes only the two bytes its length byte `06` covers), with total
bytes consumed equal to 15 (the trailing byte `22` is not consumed). -/
theorem c3_amended :
    (fr_radius_decode_pair 20 c3Dict ⟨c3Bytes, 0⟩ 16 Option.none).map
        (fun r => (r.1, r.2.map fun q => (q.da.attr, q.value, q.tag, q.tainted))) =
      some (15, [(1, [0xAA, 0xBB, 0xCC, 0xDD, 0xEE, 0xFF, 0x11], 0, true)]) := by
  decide

/-! ## Claim C10: empty top-level attributes -/

theorem bread_bslice (b : Buf) (off n i : Nat) (h : i < n) :
    (bslice b off n).getD i 0 = bread b (off + i) := by
  simp only [bslice, bread, List.getD_eq_getElem?_getD, List.getElem?_take, h, if_pos,
    List.getElem?_drop]
  rw [Nat.add_assoc]

/-- C10: a call of `fr_radius_decode_pair` on a lone empty attribute
(`data_len = 2`, length byte 2) returns 2 and appends no pair, except
that with a true protocol root and attribute type Chargeable-User-Identity
exactly one empty tainted pair is appended (still returning 2); an empty
attribute that is not the whole buffer gets no such special case (no
pair is ever appended for it). -/
theorem c10_empty_attribute (fuel : Nat) (dict : FrDict) (data : Buf) (data_len : Nat)
    (pctx : Option RadiusCtx) (hl : bread data 1 = 2) :
    (data_len = 2 →
      (fr_radius_decode_pair fuel dict data data_len pctx).map
          (fun r => (r.1, r.2.map fun q => (q.value, q.tag, q.tainted))) =
        some (2, if dict.root.is_root = true ∧ bread data 0 = FR_CHARGEABLE_USER_IDENTITY
                 then [(([] : List Nat), 0, true)] else [])) ∧
    (2 < data_len → ∀ n d, fr_radius_decode_pair fuel dict data data_len pctx = some (n, d) → d = []) := by
  constructor
  · intro h2
    subst h2
    simp only [fr_radius_decode_pair]
    rw [if_neg (by omega), if_pos (by trivial)]
    by_cases hr : dict.root.is_root = true
    · rw [if_neg (by simpa using hr)]
      by_cases hc : bread data 0 = FR_CHARGEABLE_USER_IDENTITY
      · rw [if_neg (by simpa using hc)]
        simp [hr, hc]
      · rw [if_pos hc]
        simp [hr, hc]
    · rw [if_pos (by simpa using hr)]
      simp [hr]
  · intro h2 n d hd
    simp only [fr_radius_decode_pair] at hd
    rw [if_neg (by omega), if_neg (by omega)] at hd
    by_cases hc : (childOrUnknown dict.root (bread data 0)).concat = true
    · rw [if_pos hc] at hd
      exfalso
      have hs1 : (bslice data 0 data_len).getD 1 0 = 2 := by
        rw [bread_bslice data 0 data_len 1 (by omega)]
        simpa using hl
      unfold decode_concat at hd
      rcases hsl : bslice data 0 data_len with _ | ⟨a, t⟩
      · rw [hsl] at hs1
        simp at hs1
      · rw [hsl] at hs1 hd
        simp only [concatLoop] at hd
        rw [if_pos (by omega : (a :: t).getD 1 0 ≤ 2)] at hd
        simp at hd
    · rw [if_neg hc] at hd
      cases fuel with
      | zero => simp [fr_radius_decode_pair_value] at hd
      | succ f =>
        rw [hl] at hd
        simp only [fr_radius_decode_pair_value] at hd
        rw [if_neg (by omega), if_pos (by trivial)] at hd
        simp at hd
        exact hd.2

def c10Dict : FrDict :=
  ⟨.mk 0 .tOctets false .none false 0 false false true false
    [.mk 89 .tString false .none false 0 false false false false []], []⟩

theorem c10_witness :
    bread ⟨[89, 2], 0⟩ 1 = 2 ∧
    ((2 = 2 →
        (fr_radius_decode_pair 3 c10Dict ⟨[89, 2], 0⟩ 2 Option.none).map
            (fun r => (r.1, r.2.map fun q => (q.value, q.tag, q.tainted))) =
          some (2, if c10Dict.root.is_root = true ∧
                      bread ⟨[89, 2], 0⟩ 0 = FR_CHARGEABLE_USER_IDENTITY
                   then [(([] : List Nat), 0, true)] else [])) ∧
      (2 < 2 → ∀ n d, fr_radius_decode_pair 3 c10Dict ⟨[89, 2], 0⟩ 2 Option.none = some (n, d) → d = [])) :=
  ⟨by decide, c10_empty_attribute 3 c10Dict ⟨[89, 2], 0⟩ 2 Option.none (by decide)⟩

/-! ## Claim C6: tag extraction for tagged strings -/

def c6Da : Da := .mk 5 .tString true .none false 0 false false false false []

def c6Dict : FrDict :=
  ⟨.mk 0 .tOctets false .none false 0 false false true false [c6Da], []⟩

/-- C6 counterexample: with a tagged STRING descriptor and data
`00 41`, the decoder DOES consume the first byte `0x00` as the tag (the
emitted value is `[0x41]`, the tag byte excluded), although `0x00` does
not lie in `[0x01, 0x1F]` — the code's test is `p[0] < 0x20`, which
includes zero.  So "consumed iff the byte lies in [0x01, 0x1F]" is
false at this input. -/
theorem c6_counterexample :
    ¬(((fr_radius_decode_pair_value 5 c6Dict c6Da ⟨[0x00, 0x41], 0⟩ 2 2 Option.none).map
          (fun r => r.2.map fun q => (q.value, q.tag)) =
        some [([0x41], 0x00)]) ↔ (0x01 ≤ 0x00 ∧ 0x00 ≤ 0x1F)) := by
  decide


/-- C6 amended: for a descriptor with `has_tag`, kind STRING and no
encryption (in particular not Tunnel-Password), with `1 < attr_len ≤ 255`
bytes of data, the first byte is consumed as the pair's tag iff that
byte lies in `[0x00, 0x1F]` (the code's bound is `p[0] < 0x20`, zero
included); when consumed the emitted value excludes the tag byte, and
otherwise the emitted value is the whole data with tag 0. -/
theorem c6_amended_tag_extraction (fuel : Nat) (dict : FrDict) (da : Da) (data : Buf)
    (attr_len packet_len : Nat) (pctx : Option RadiusCtx)
    (h1 : da.has_tag = true) (h2 : da.type = .tString) (h3 : da.subtype = .none)
    (h4 : 1 < attr_len) (h5 : attr_len ≤ 255) (h6 : attr_len ≤ packet_len) :
    (((fr_radius_decode_pair_value (fuel + 1) dict da data attr_len packet_len pctx).map
        (fun r => r.2.map fun q => (q.value, q.tag)) =
      some [(bslice data 1 (attr_len - 1), bread data 0)]) ↔ bread data 0 ≤ 0x1F) ∧
    (0x1F < bread data 0 →
      (fr_radius_decode_pair_value (fuel + 1) dict da data attr_len packet_len pctx).map
          (fun r => r.2.map fun q => (q.value, q.tag)) =
        some [(bslice data 0 attr_len, 0)]) := by
  have cs : ¬(packet_len < attr_len ∨ 131072 < attr_len) := by omega
  have cz : ¬attr_len = 0 := by omega
  have hdec : ∀ p0 dlen0 copied,
      decryptPhase da pctx data p0 dlen0 attr_len copied = .ok p0 dlen0 := by
    intro p0 dlen0 copied
    unfold decryptPhase
    rcases pctx with _ | c
    · rfl
    · simp [h3]
  have hbig : ¬(18446744073709551615 : Nat) < attr_len - 1 := by omega
  have hbig2 : ¬(18446744073709551615 : Nat) < attr_len := by omega
  have key : fr_radius_decode_pair_value (fuel + 1) dict da data attr_len packet_len pctx =
      if bread data 0 < 0x20
      then some (attr_len, [⟨da, bslice data 1 (attr_len - 1), bread data 0, true⟩])
      else some (attr_len, [⟨da, bslice data 0 attr_len, 0, true⟩]) := by
    by_cases hb : bread data 0 < 0x20
    · rw [if_pos hb]
      have htag : tagPhase da data attr_len =
          some (⟨bslice data 1 (attr_len - 1), 0⟩, attr_len - 1, bread data 0, true) := by
        unfold tagPhase
        rw [if_pos ⟨h1, h4, Or.inl hb⟩, if_neg (by omega), if_pos h2]
      have htake : (bslice data 1 (attr_len - 1)).take (attr_len - 1) =
          bslice data 1 (attr_len - 1) := by
        apply List.take_of_length_le
        simp [bslice]
      simp only [fr_radius_decode_pair_value]
      rw [if_neg cs, if_neg cz, htag]
      simp only [hdec]
      rw [h2]
      simp [attrSizes, emitVP, fromNetwork, bslice, htake, hbig, h2]
    · rw [if_neg hb]
      have htag : tagPhase da data attr_len = some (data, attr_len, 0, false) := by
        unfold tagPhase
        rw [if_neg ?side]
        case side =>
          rintro ⟨-, -, hx | hx⟩
          · exact hb hx
          · rw [h3] at hx
            simp at hx
      simp only [fr_radius_decode_pair_value]
      rw [if_neg cs, if_neg cz, htag]
      simp only [hdec]
      rw [h2]
      simp [attrSizes, emitVP, fromNetwork, hbig2, h2, bslice]
  rw [key]
  by_cases hb : bread data 0 < 0x20
  · rw [if_pos hb]
    constructor
    · refine iff_of_true ?_ (by omega)
      simp
    · intro hgt
      omega
  · rw [if_neg hb]
    constructor
    · refine iff_of_false ?_ (by omega)
      intro heq
      simp at heq
      omega
    · intro _
      simp

theorem c6_witness :
    (c6Da.has_tag = true ∧ c6Da.type = FrType.tString ∧ c6Da.subtype = EncryptFlag.none ∧
      1 < 2 ∧ 2 ≤ 255 ∧ 2 ≤ 2) ∧
    ((((fr_radius_decode_pair_value (4 + 1) c6Dict c6Da ⟨[0x01, 0x41], 0⟩ 2 2 Option.none).map
          (fun r => r.2.map fun q => (q.value, q.tag)) =
        some [(bslice ⟨[0x01, 0x41], 0⟩ 1 (2 - 1), bread ⟨[0x01, 0x41], 0⟩ 0)]) ↔
          bread ⟨[0x01, 0x41], 0⟩ 0 ≤ 0x1F) ∧
      (0x1F < bread ⟨[0x01, 0x41], 0⟩ 0 →
        (fr_radius_decode_pair_value (4 + 1) c6Dict c6Da ⟨[0x01, 0x41], 0⟩ 2 2 Option.none).map
            (fun r => r.2.map fun q => (q.value, q.tag)) =
          some [(bslice ⟨[0x01, 0x41], 0⟩ 0 2, 0)])) :=
  ⟨⟨rfl, rfl, rfl, by decide, by decide, by decide⟩,
    c6_amended_tag_extraction 4 c6Dict c6Da ⟨[0x01, 0x41], 0⟩ 2 2 Option.none
      rfl rfl rfl (by decide) (by decide) (by decide)⟩
